import Mathlib

/-!
Verification of the manga4life downloader (src/main.py) against its design
specification.  The Python code is shallowly embedded: strings are `List Char`,
HTTP byte bodies are `List Nat`, fallible Python code returns `Except PyErr`,
the asyncio schedulers become explicit step relations on task-status states,
and the filesystem becomes a map from paths to contents.
-/

namespace MangaForLife

/-- Python `str.split(sep)` for a one-character separator: splits at every
occurrence of the separator, keeping empty parts; the empty string yields a
single empty part. -/
def splitOnChar (sep : Char) : List Char → List (List Char)
  | [] => [[]]
  | c :: cs =>
    match splitOnChar sep cs with
    | [] => [[]]
    | r :: rs => if c = sep then [] :: r :: rs else (c :: r) :: rs

/-- Python `s.split(sep)[-1]`: the last part (the split list is never empty). -/
def lastPart (sep : Char) (s : List Char) : List Char :=
  (splitOnChar sep s).getLastD []

/-- Python `s.split(sep)[0]`: the first part (the split list is never empty). -/
def firstPart (sep : Char) (s : List Char) : List Char :=
  (splitOnChar sep s).headD []

/-- The exceptions the embedded code can raise. `clientResponseError` is
`aiohttp.ClientResponseError` carrying the HTTP status; `clientError` stands
for network-level `aiohttp.ClientError` failures (timeout, connection reset,
DNS failure); `imageError` is a PIL decode failure; `valueError` is the
tuple-unpacking failure in `_extract_chapter_page`; `assertionError` comes
from the `assert` statements of `find_last_chapter`. -/
inductive PyErr where
  | valueError
  | clientResponseError (status : Nat)
  | clientError
  | imageError
  | assertionError
  deriving DecidableEq, Repr

/-- Line 115 of src/main.py: `info = url.split("/")[-1].split(".")[0]`. -/
def segInfo (url : List Char) : List Char :=
  firstPart '.' (lastPart '/' url)

/-- The Python unpacking `chapter, page = info.split("-")` succeeds exactly
when the split has two parts; otherwise it raises `ValueError`, modelled
as `none`. -/
def unpackTwo : List (List Char) → Option (List Char × List Char)
  | [chapter, page] => some (chapter, page)
  | _ => none

/-- `Manga._extract_chapter_page` (src/main.py lines 113-119). -/
def extract_chapter_page (url : List Char) : Option (List Char × List Char) :=
  unpackTwo (splitOnChar '-' (segInfo url))

/-- The fixed-length tail `[0-9]{4}-[0-9]{3}\.png` of `Manga.pattern`
(src/main.py line 17): exactly twelve characters. -/
def patternTail (t : List Char) : Bool :=
  match t with
  | [a, b, c, d, '-', e, f, g, '.', 'p', 'n', 'g'] =>
      a.isDigit && b.isDigit && c.isDigit && d.isDigit &&
      e.isDigit && f.isDigit && g.isDigit
  | _ => false

/-- `re.match(Manga.pattern, s)` with the whole match obligated to reach the
end anchor: the string is an arbitrary prefix without newlines (`.*` does not
cross newlines) followed by the twelve-character tail. -/
def reMatchCore (s : List Char) : Bool :=
  decide (12 ≤ s.length) && patternTail (s.drop (s.length - 12)) &&
    (s.take (s.length - 12)).all (fun c => c != '\n')

/-- `re.match(Manga.pattern, s) is not None`. The `$` anchor of the Python
regex also matches just before a single trailing newline. -/
def matchesPattern (s : List Char) : Bool :=
  reMatchCore s || ((s.getLastD ' ' == '\n') && reMatchCore s.dropLast)

/-- Python `str(source)` applied to an attribute value of type `str | None`. -/
def pyStr (source : Option (List Char)) : List Char :=
  match source with
  | none => "None".data
  | some s => s

/-- `Manga.get_images_src` (src/main.py lines 71-84): map every scraped
`img[src]` attribute through `str` and keep those matching `Manga.pattern`,
in scrape order. -/
def get_images_src (sources : List (Option (List Char))) : List (List Char) :=
  (sources.map pyStr).filter matchesPattern

/-- The part of `Manga.run_driver` (src/main.py lines 55-69) downstream of the
browser interaction: the returned image list and whether the
`"No images were found"` warning fires (it fires exactly when the list is
empty). -/
def run_driver (sources : List (Option (List Char))) : List (List Char) × Bool :=
  let images := get_images_src sources
  (images, images.length == 0)

/-- An HTTP response: status code and body bytes. -/
structure HttpResponse where
  status : Nat
  body : List Nat
  deriving DecidableEq, Repr

/-- Result of `session.get(url)`: a response, or a network-level failure
raised as `aiohttp.ClientError`. -/
inductive HttpResult where
  | response (r : HttpResponse)
  | netError
  deriving DecidableEq, Repr

/-- `response.raise_for_status()`: aiohttp raises `ClientResponseError`
exactly when the status is 400 or above. -/
def raise_for_status (r : HttpResponse) : Except PyErr Unit :=
  if 400 ≤ r.status then Except.error (PyErr.clientResponseError r.status)
  else Except.ok ()

/-- Externally visible action of one page download, in program order. -/
inductive Event where
  | httpGet (url : List Char)
  | logError (url : List Char) (status : Nat)
  | save (chapter page : List Char) (body : List Nat)
  | logSuccess (url : List Char)
  deriving DecidableEq, Repr

/-- Whether an event is the start of an HTTP request. -/
def isHttpGet : Event → Bool
  | Event.httpGet _ => true
  | _ => false

/-- `Manga.download_image` (src/main.py lines 96-111), one call: extract the
(chapter, page) key from the URL, perform a single GET, run
`raise_for_status` — on a non-2xx response log the error and re-raise the
`ClientResponseError` — otherwise decode the body as an image and save it.
There is no retry loop and no attempt counter in the source.  `decodeOk`
models which byte strings `PIL.Image.open` accepts.  The first component is
the trace of externally visible actions of this call. -/
def download_image (decodeOk : List Nat → Bool) (fetch : HttpResult)
    (url : List Char) : List Event × Except PyErr Unit :=
  match extract_chapter_page url with
  | none => ([], Except.error PyErr.valueError)
  | some (chapter, page) =>
    match fetch with
    | HttpResult.netError => ([Event.httpGet url], Except.error PyErr.clientError)
    | HttpResult.response r =>
      match raise_for_status r with
      | Except.error e => ([Event.httpGet url, Event.logError url r.status], Except.error e)
      | Except.ok () =>
        if decodeOk r.body then
          ([Event.httpGet url, Event.save chapter page r.body, Event.logSuccess url],
            Except.ok ())
        else
          ([Event.httpGet url], Except.error PyErr.imageError)

/-- How `await asyncio.gather(t, rest...)` combines results with its default
`return_exceptions=False`: the first exception in task order is re-raised to
the awaiter, otherwise the remaining results stand. -/
def mergeResults : Except PyErr Unit → Except PyErr Unit → Except PyErr Unit
  | Except.error e, _ => Except.error e
  | Except.ok (), r => r

/-- `Manga.download_images` (src/main.py lines 86-94) as trace and result:
one task per URL; `asyncio.gather` re-raises the error of the first failing
task in task order to the awaiter (the other tasks still run).  Interleaving
of events across tasks is scheduler-dependent; this model concatenates the
per-task traces, which fixes the events of each task and all event counts. -/
def download_images (decodeOk : List Nat → Bool) (fetch : List Char → HttpResult) :
    List (List Char) → List Event × Except PyErr Unit
  | [] => ([], Except.ok ())
  | u :: rest =>
    ((download_image decodeOk (fetch u) u).1 ++
        (download_images decodeOk fetch rest).1,
      mergeResults (download_image decodeOk (fetch u) u).2
        (download_images decodeOk fetch rest).2)

/-- `Manga.run_driver_and_download` (src/main.py lines 51-53) as a result:
scrape the chapter page, then download every matching image. -/
def run_driver_and_download (decodeOk : List Nat → Bool)
    (fetch : List Char → HttpResult) (sources : List (Option (List Char))) :
    Except PyErr Unit :=
  (download_images decodeOk fetch (run_driver sources).1).2

/-- The window decomposition computed by the loop
`for chunk_start in range(begin, end + 1, concurrent_chapters)` with
`chunk_end = min(chunk_start + concurrent_chapters - 1, end)`
(src/main.py lines 38-39); indices are naturals and the step is positive. -/
def windows (b e cc : Nat) : List (List Nat) :=
  if _hbe : b ≤ e ∧ 0 < cc then
    List.range' b (min cc (e + 1 - b)) :: windows (b + cc) e cc
  else []
  termination_by e + 1 - b
  decreasing_by omega

/-- One window of `Manga.download_chapters` as a result: every chapter task of
the window runs `run_driver_and_download`; `asyncio.gather` re-raises the
error of the first failing task in list order. -/
def gatherChapters (decodeOk : List Nat → Bool)
    (fetchOf : Nat → List Char → HttpResult)
    (sourcesOf : Nat → List (Option (List Char))) : List Nat → Except PyErr Unit
  | [] => Except.ok ()
  | c :: cs =>
    mergeResults (run_driver_and_download decodeOk (fetchOf c) (sourcesOf c))
      (gatherChapters decodeOk fetchOf sourcesOf cs)

/-- The window loop of `Manga.download_chapters` (src/main.py lines 38-47) as
a result: windows are awaited one after the other; an exception raised out of
a window aborts the loop. -/
def runWindows (decodeOk : List Nat → Bool)
    (fetchOf : Nat → List Char → HttpResult)
    (sourcesOf : Nat → List (Option (List Char))) : List (List Nat) → Except PyErr Unit
  | [] => Except.ok ()
  | w :: ws =>
    mergeResults (gatherChapters decodeOk fetchOf sourcesOf w)
      (runWindows decodeOk fetchOf sourcesOf ws)

/-- `Manga.download_chapters` (src/main.py lines 28-49) as a result, for an
explicit range (the `end == -1` discovery branch is not taken). -/
def download_chapters (decodeOk : List Nat → Bool)
    (fetchOf : Nat → List Char → HttpResult)
    (sourcesOf : Nat → List (Option (List Char)))
    (b e cc : Nat) : Except PyErr Unit :=
  runWindows decodeOk fetchOf sourcesOf (windows b e cc)

/-- An `item` element of the RSS feed; `guidText` is the text of its first
`guid` child, `none` when the `guid` element is missing or has no text
(both cases hit an `assert` in the source). -/
structure FeedItem where
  guidText : Option (List Char)

/-- The value of a digit string. -/
def digitsToNat (s : List Char) : Nat :=
  s.foldl (fun n c => 10 * n + (c.toNat - 48)) 0

/-- Python `int(s)`, modelled on the inputs the claims need: a nonempty
all-digit string parses to its value; anything else is mapped to
`ValueError` (Python would additionally strip whitespace and accept a
sign, which no claim exercises). -/
def pyInt (s : List Char) : Except PyErr Int :=
  if s.isEmpty || !(s.all Char.isDigit) then Except.error PyErr.valueError
  else Except.ok (Int.ofNat (digitsToNat s))

/-- `Manga.find_last_chapter` (src/main.py lines 131-148) downstream of the
HTTP fetch and XML parse: take the first `item` of the feed in document
order, read its `guid` text, split it on dashes and parse the last part as
an integer.  A missing item or guid hits an `assert`. -/
def find_last_chapter (items : List FeedItem) : Except PyErr Int :=
  match items with
  | [] => Except.error PyErr.assertionError
  | it :: _ =>
    match it.guidText with
    | none => Except.error PyErr.assertionError
    | some g => pyInt ((splitOnChar '-' g).getLastD [])

/-- Local storage as the code observes it: which directories exist and what
bytes each file holds. -/
structure FileSys where
  dirs : List Char → Bool
  files : List Char → Option (List Nat)

/-- `os.path.join` for the two-component paths the code builds. -/
def joinPath (a b : List Char) : List Char := a ++ '/' :: b

/-- `os.makedirs(d, exist_ok=True)`: the directory exists afterwards; an
already existing directory is left alone. -/
def makedirs (fs : FileSys) (d : List Char) : FileSys :=
  { fs with dirs := fun x => x == d || fs.dirs x }

/-- `image.save(p)`: writing a file overwrites any previous content at the
same path. -/
def saveFile (fs : FileSys) (p : List Char) (body : List Nat) : FileSys :=
  { fs with files := fun x => if x == p then some body else fs.files x }

/-- The Sink store operation for key (chapter, page) as the code realizes it:
`os.makedirs(os.path.join(self.path, chapter), exist_ok=True)`
(src/main.py lines 56-57) followed by
`image.save(os.path.join(self.path, chapter, page + ".png"))`
(src/main.py lines 108-109), with `base` standing for `self.path`. -/
def sinkStore (base : List Char) (fs : FileSys) (chapter page : List Char)
    (body : List Nat) : FileSys :=
  saveFile (makedirs fs (joinPath base chapter))
    (joinPath (joinPath base chapter) (page ++ ".png".data)) body

/-- Scheduling status of one asyncio task. -/
inductive TaskStatus where
  | pending
  | inFlight
  | finished
  deriving DecidableEq, Repr

/-- Whether a task currently holds the semaphore. -/
def isInFlight : TaskStatus → Bool
  | TaskStatus.inFlight => true
  | _ => false

/-- Number of tasks of the inner scheduler currently holding the semaphore,
i.e. inside `async with semaphore` (src/main.py lines 89-91). -/
def inFlightCount (σ : List TaskStatus) : Nat := σ.countP isInFlight

/-- One transition of the inner page scheduler `Manga.download_images`
(src/main.py lines 86-94) with `C = window_size`: `start` is the
`semaphore.acquire` of `async with semaphore` — `asyncio.Semaphore(C)` lets
it succeed only while fewer than `C` tasks hold the semaphore — after which
the task issues its HTTP request; `finish` is the semaphore release when
`download_image` returns or raises. -/
inductive PageStep (C : Nat) : List TaskStatus → List TaskStatus → Prop where
  | start (σ : List TaskStatus) (i : Nat) (hi : σ[i]? = some TaskStatus.pending)
      (hcap : inFlightCount σ < C) : PageStep C σ (σ.set i TaskStatus.inFlight)
  | finish (σ : List TaskStatus) (i : Nat) (hi : σ[i]? = some TaskStatus.inFlight) :
      PageStep C σ (σ.set i TaskStatus.finished)

/-- States of one `download_images` run over `n` page tasks, from the state
where every task created by line 93 is still pending. -/
def PageReachable (C n : Nat) (σ : List TaskStatus) : Prop :=
  Relation.ReflTransGen (PageStep C) (List.replicate n TaskStatus.pending) σ

/-- State of the outer chapter scheduler `Manga.download_chapters`: the index
of the window the loop is currently awaiting, and the status of every chapter
task, grouped by window. -/
structure ChapterState where
  window : Nat
  tasks : List (List TaskStatus)
  deriving DecidableEq, Repr

/-- Initial orchestrator state for a window decomposition: the loop is at its
first window and no chapter task has run. -/
def initChapterState (ws : List (List Nat)) : ChapterState :=
  { window := 0, tasks := ws.map (fun w => w.map (fun _ => TaskStatus.pending)) }

/-- One transition of the outer chapter scheduler (src/main.py lines 38-47):
only tasks of the window currently being awaited can start (they are created
by lines 41-46 when the loop reaches that window) or finish, and the loop
moves past its `await asyncio.gather(*tasks)` only when every task of the
current window has reached a terminal state. -/
inductive ChapterStep : ChapterState → ChapterState → Prop where
  | start (s : ChapterState) (win : List TaskStatus) (j : Nat)
      (hw : s.tasks[s.window]? = some win)
      (hj : win[j]? = some TaskStatus.pending) :
      ChapterStep s { s with tasks := s.tasks.set s.window (win.set j TaskStatus.inFlight) }
  | finish (s : ChapterState) (win : List TaskStatus) (j : Nat)
      (hw : s.tasks[s.window]? = some win)
      (hj : win[j]? = some TaskStatus.inFlight) :
      ChapterStep s { s with tasks := s.tasks.set s.window (win.set j TaskStatus.finished) }
  | advance (s : ChapterState) (win : List TaskStatus)
      (hw : s.tasks[s.window]? = some win)
      (hdone : ∀ t ∈ win, t = TaskStatus.finished) :
      ChapterStep s { s with window := s.window + 1 }

/-- States reachable by one `download_chapters` run over the given windows. -/
def ChapterReachable (ws : List (List Nat)) (s : ChapterState) : Prop :=
  Relation.ReflTransGen ChapterStep (initChapterState ws) s

/-- Modelled from the spec (section 4.2): the `FetchOutcome` classification
the spec ascribes to the single-attempt fetch.  The source has no such type;
this definition exists only to be compared with the behaviour of
`download_image`. -/
inductive FetchOutcome where
  | success
  | notFound
  | transientError
  | fatalError
  deriving DecidableEq, Repr

/-- Modelled from the spec (section 4.2): 404 maps to `notFound`, 5xx and
network-level errors map to `transientError`, 4xx other than 404 maps to
`fatalError`, 2xx maps to `success`. -/
def specClassify (fetch : HttpResult) : FetchOutcome :=
  match fetch with
  | HttpResult.netError => FetchOutcome.transientError
  | HttpResult.response r =>
    if r.status = 404 then FetchOutcome.notFound
    else if 500 ≤ r.status ∧ r.status ≤ 599 then FetchOutcome.transientError
    else if 400 ≤ r.status then FetchOutcome.fatalError
    else FetchOutcome.success

/-- A fetch result the spec classifies as transient: a network-level error or
a 5xx response. -/
def IsTransient (fetch : HttpResult) : Prop :=
  fetch = HttpResult.netError ∨
    ∃ r, fetch = HttpResult.response r ∧ 500 ≤ r.status ∧ r.status ≤ 599

/-- Invariant of the outer chapter scheduler: windows before the one the loop
is awaiting are entirely finished, windows after it are entirely pending. -/
def ChapterInv (s : ChapterState) : Prop :=
  ∀ j win, s.tasks[j]? = some win →
    (j < s.window → ∀ t ∈ win, t = TaskStatus.finished) ∧
    (s.window < j → ∀ t ∈ win, t = TaskStatus.pending)

theorem splitOnChar_ne_nil (sep : Char) (s : List Char) : splitOnChar sep s ≠ [] := by
  induction s with
  | nil => simp [splitOnChar]
  | cons c cs ih =>
    simp only [splitOnChar]
    cases h : splitOnChar sep cs with
    | nil => simp
    | cons r rs => by_cases hc : c = sep <;> simp [hc]

theorem splitOnChar_of_not_mem {sep : Char} {s : List Char} (h : sep ∉ s) :
    splitOnChar sep s = [s] := by
  induction s with
  | nil => rfl
  | cons c cs ih =>
    have hc : ¬c = sep := fun e => h (e ▸ List.mem_cons_self c cs)
    have hcs : sep ∉ cs := fun m => h (List.mem_cons_of_mem _ m)
    simp only [splitOnChar, ih hcs]
    simp [hc]

theorem splitOnChar_append (sep : Char) (xs ys : List Char) :
    splitOnChar sep (xs ++ sep :: ys) = splitOnChar sep xs ++ splitOnChar sep ys := by
  induction xs with
  | nil =>
    simp only [List.nil_append, splitOnChar]
    cases h : splitOnChar sep ys with
    | nil => exact absurd h (splitOnChar_ne_nil sep ys)
    | cons r rs => simp
  | cons c cs ih =>
    show splitOnChar sep (c :: (cs ++ sep :: ys)) = _
    simp only [splitOnChar, ih]
    cases h : splitOnChar sep cs with
    | nil => exact absurd h (splitOnChar_ne_nil sep cs)
    | cons r rs => by_cases hc : c = sep <;> simp [hc]

theorem length_splitOnChar (sep : Char) (s : List Char) :
    (splitOnChar sep s).length = s.count sep + 1 := by
  induction s with
  | nil => simp [splitOnChar]
  | cons c cs ih =>
    simp only [splitOnChar]
    cases h : splitOnChar sep cs with
    | nil => exact absurd h (splitOnChar_ne_nil sep cs)
    | cons r rs =>
      rw [h] at ih
      by_cases hc : c = sep <;>
        simp_all [List.count_cons, beq_iff_eq, hc, Nat.add_comm]

theorem unpackTwo_of_three_le {l : List (List Char)} (h : 3 ≤ l.length) :
    unpackTwo l = none := by
  match l with
  | [] => simp at h
  | [a] => simp at h
  | [a, b] => simp at h
  | a :: b :: c :: rest => rfl

theorem getLastD_splitOnChar {sep : Char} (pre : List Char) {tok : List Char}
    (htok : sep ∉ tok) :
    (splitOnChar sep (pre ++ sep :: tok)).getLastD [] = tok := by
  rw [splitOnChar_append, splitOnChar_of_not_mem htok, List.getLastD_concat]

/-- Claim C10: when the final slash-separated segment of the URL, cut at its
first dot, has the shape `<chapter>-<page>` with exactly one dash,
`_extract_chapter_page` returns the pair `(<chapter>, <page>)`; for a URL the
filter pattern accepts whose segment carries two or more dashes before the
first dot, the two-element unpacking fails (`ValueError`), so no pair is
returned. -/
theorem c10_extract_chapter_page :
    (∀ url chapter page, segInfo url = chapter ++ '-' :: page →
      '-' ∉ chapter → '-' ∉ page →
      extract_chapter_page url = some (chapter, page)) ∧
    (∀ url, matchesPattern url = true → 2 ≤ (segInfo url).count '-' →
      extract_chapter_page url = none) := by
  constructor
  · intro url chapter page hinfo hc hp
    unfold extract_chapter_page
    rw [hinfo, splitOnChar_append, splitOnChar_of_not_mem hc,
      splitOnChar_of_not_mem hp]
    rfl
  · intro url _hmatch hcount
    unfold extract_chapter_page
    apply unpackTwo_of_three_le
    rw [length_splitOnChar]
    omega

/-- Witness for C10 at concrete URLs: a one-dash segment parses to its two
parts; a pattern-accepted URL with an extra dash yields no pair. -/
theorem c10_witness :
    extract_chapter_page "https://h/0012-003.png".data =
      some ("0012".data, "003".data) ∧
    matchesPattern "https://h/a-0001-001.png".data = true ∧
    extract_chapter_page "https://h/a-0001-001.png".data = none :=
  ⟨c10_extract_chapter_page.1 _ "0012".data "003".data (by decide) (by decide)
      (by decide),
    by decide,
    c10_extract_chapter_page.2 _ (by decide) (by decide)⟩

/-- Claim C6: when the guid text of the first feed item ends in a
dash-separated token of digits, `find_last_chapter` returns the numeric value
of that token. -/
theorem c6_find_last_chapter (it : FeedItem) (rest : List FeedItem)
    (pre tok : List Char) (hg : it.guidText = some (pre ++ '-' :: tok))
    (hsep : '-' ∉ tok) (hne : tok ≠ []) (hdig : tok.all Char.isDigit = true) :
    find_last_chapter (it :: rest) = Except.ok (Int.ofNat (digitsToNat tok)) := by
  have h1 : find_last_chapter (it :: rest) =
      (match it.guidText with
        | none => Except.error PyErr.assertionError
        | some g => pyInt ((splitOnChar '-' g).getLastD [])) := rfl
  rw [h1, hg]
  show pyInt ((splitOnChar '-' (pre ++ '-' :: tok)).getLastD []) = _
  rw [getLastD_splitOnChar pre hsep]
  unfold pyInt
  have hempty : tok.isEmpty = false := by
    cases tok with
    | nil => exact absurd rfl hne
    | cons c cs => rfl
  rw [hempty, hdig]
  rfl

/-- Witness for C6: a feed whose first item guid ends in `-142` yields 142. -/
theorem c6_witness :
    find_last_chapter [⟨some "Chainsaw-Man-chapter-142".data⟩] =
      Except.ok 142 :=
  (c6_find_last_chapter ⟨some "Chainsaw-Man-chapter-142".data⟩ []
      "Chainsaw-Man-chapter".data "142".data (by decide) (by decide)
      (by decide) (by decide)).trans rfl

/-- Claim C7: `get_images_src` returns exactly the order-preserved subsequence
of the stringified scraped attributes accepted by `Manga.pattern`: every
returned element matches, every matching attribute occurrence is kept (with
its multiplicity), and the result is a sublist of the scrape order. -/
theorem c7_get_images_src (sources : List (Option (List Char))) :
    (∀ s ∈ get_images_src sources, matchesPattern s = true) ∧
    (∀ s ∈ sources.map pyStr, matchesPattern s = true →
      s ∈ get_images_src sources) ∧
    List.Sublist (get_images_src sources) (sources.map pyStr) ∧
    (∀ s, matchesPattern s = true →
      (get_images_src sources).count s = (sources.map pyStr).count s) := by
  refine ⟨?_, ?_, List.filter_sublist _, ?_⟩
  · intro s hs
    exact (List.mem_filter.mp hs).2
  · intro s hs hm
    exact List.mem_filter.mpr ⟨hs, hm⟩
  · intro s hm
    exact List.count_filter hm

/-- Witness for C7: a matching source survives the filter. -/
theorem c7_witness :
    ("https://h/0001-001.png".data : List Char) ∈
      get_images_src
        [some "https://h/0001-001.png".data, none,
          some "https://h/logo.jpg".data] :=
  (c7_get_images_src _).2.1 _ (by decide) (by decide)

/-- Claim C8: when no scraped source matches the pattern, `run_driver` returns
the empty list (raising nothing) and fires its warning, and `download_images`
on that empty list creates no task: its trace holds no event at all — in
particular no HTTP request — and it returns normally. -/
theorem c8_no_match_empty (sources : List (Option (List Char)))
    (h : ∀ s ∈ sources.map pyStr, matchesPattern s = false)
    (decodeOk : List Nat → Bool) (fetch : List Char → HttpResult) :
    run_driver sources = ([], true) ∧
    download_images decodeOk fetch (run_driver sources).1 =
      ([], Except.ok ()) := by
  have himg : get_images_src sources = [] := by
    unfold get_images_src
    rw [List.filter_eq_nil_iff]
    intro a ha
    simp [h a ha]
  constructor
  · unfold run_driver
    rw [himg]
    rfl
  · unfold run_driver
    rw [himg]
    rfl

/-- Witness for C8 at a concrete scrape with no matching source. -/
theorem c8_witness :
    run_driver [some "https://h/logo.jpg".data, none] = ([], true) ∧
    download_images (fun _ => true) (fun _ => HttpResult.netError)
      (run_driver [some "https://h/logo.jpg".data, none]).1 =
      ([], Except.ok ()) :=
  c8_no_match_empty _ (by decide) _ _

/-- Claim C9: storing the same bytes twice under the same (chapter, page) key
— the directory creation of line 56-57 plus the overwriting save of line
108-109 — leaves storage exactly as one store does. -/
theorem c9_sink_idempotent (base : List Char) (fs : FileSys)
    (chapter page : List Char) (body : List Nat) :
    sinkStore base (sinkStore base fs chapter page body) chapter page body =
      sinkStore base fs chapter page body := by
  cases fs with
  | mk dirs files =>
    simp only [sinkStore, saveFile, makedirs]
    congr 1
    · funext x
      by_cases hx : x == joinPath base chapter <;> simp [hx]
    · funext x
      by_cases hx :
          x == joinPath (joinPath base chapter) (page ++ ".png".data) <;>
        simp [hx]

theorem countP_set_of_neg_pos {α : Type} (p : α → Bool) {l : List α} {i : Nat}
    {b a : α} (h : l[i]? = some b) (hb : p b = false) (ha : p a = true) :
    (l.set i a).countP p = l.countP p + 1 := by
  induction l generalizing i with
  | nil => simp at h
  | cons x xs ih =>
    cases i with
    | zero =>
      simp only [List.getElem?_cons_zero, Option.some.injEq] at h
      subst h
      simp [List.countP_cons, ha, hb]
    | succ i =>
      simp only [List.getElem?_cons_succ] at h
      have hx := ih h
      simp only [List.set_cons_succ, List.countP_cons]
      omega

theorem countP_set_of_pos_neg {α : Type} (p : α → Bool) {l : List α} {i : Nat}
    {b a : α} (h : l[i]? = some b) (hb : p b = true) (ha : p a = false) :
    l.countP p = (l.set i a).countP p + 1 := by
  induction l generalizing i with
  | nil => simp at h
  | cons x xs ih =>
    cases i with
    | zero =>
      simp only [List.getElem?_cons_zero, Option.some.injEq] at h
      subst h
      simp [List.countP_cons, ha, hb]
    | succ i =>
      simp only [List.getElem?_cons_succ] at h
      have hx := ih h
      simp only [List.set_cons_succ, List.countP_cons]
      omega

theorem inFlightCount_replicate (n : Nat) :
    inFlightCount (List.replicate n TaskStatus.pending) = 0 := by
  unfold inFlightCount
  induction n with
  | zero => rfl
  | succ n ih => simp [List.replicate_succ, List.countP_cons, isInFlight, ih]

theorem pageStep_inFlight_le {C : Nat} {σ σ' : List TaskStatus}
    (h : PageStep C σ σ') (hle : inFlightCount σ ≤ C) :
    inFlightCount σ' ≤ C := by
  cases h with
  | start i hi hcap =>
    have hc := countP_set_of_neg_pos isInFlight hi
      (rfl : isInFlight TaskStatus.pending = false)
      (rfl : isInFlight TaskStatus.inFlight = true)
    unfold inFlightCount at *
    omega
  | finish i hi =>
    have hc := countP_set_of_pos_neg isInFlight hi
      (rfl : isInFlight TaskStatus.inFlight = true)
      (rfl : isInFlight TaskStatus.finished = false)
    unfold inFlightCount at *
    omega

/-- Claim C1: for every concurrency cap `C ≥ 1` handed to `download_images`
(`window_size`), every state reachable by the inner page scheduler keeps at
most `C` fetches in flight — a task passes its semaphore acquire, and so
begins its HTTP request, only while fewer than `C` tasks are unfinished
inside the `async with` block. -/
theorem c1_semaphore_bound (C n : Nat) (hC : 1 ≤ C) (σ : List TaskStatus)
    (h : PageReachable C n σ) : inFlightCount σ ≤ C := by
  induction h with
  | refl => rw [inFlightCount_replicate]; omega
  | tail _ step ih => exact pageStep_inFlight_le step ih

/-- Witness for C1: with cap 2 and one task, the state right after the
semaphore acquire respects the bound. -/
theorem c1_witness : inFlightCount [TaskStatus.inFlight] ≤ 2 :=
  c1_semaphore_bound 2 1 (by decide) [TaskStatus.inFlight]
    (Relation.ReflTransGen.tail Relation.ReflTransGen.refl
      (PageStep.start (List.replicate 1 TaskStatus.pending) 0 rfl (by decide)))

theorem windows_one_three_two : windows 1 3 2 = [[1, 2], [3]] := by
  rw [windows]
  norm_num
  constructor
  · decide
  rw [windows]
  norm_num
  rw [windows]
  norm_num

theorem windows_one_two_one : windows 1 2 1 = [[1], [2]] := by
  rw [windows]
  norm_num
  rw [windows]
  norm_num
  rw [windows]
  norm_num

theorem initChapterState_inv (ws : List (List Nat)) :
    ChapterInv (initChapterState ws) := by
  intro j win hj
  constructor
  · intro hlt
    exact absurd hlt (Nat.not_lt_zero j)
  · intro _ t ht
    rw [show (initChapterState ws).tasks =
        ws.map (fun w => w.map (fun _ => TaskStatus.pending)) from rfl,
      List.getElem?_map] at hj
    cases hw : ws[j]? with
    | none => rw [hw] at hj; simp at hj
    | some w =>
      rw [hw] at hj
      simp only [Option.map_some', Option.some.injEq] at hj
      subst hj
      rcases List.mem_map.mp ht with ⟨x, _, hx⟩
      exact hx.symm

theorem chapterStep_inv {s s' : ChapterState} (h : ChapterStep s s')
    (hinv : ChapterInv s) : ChapterInv s' := by
  cases h with
  | start win j hw hj =>
    intro k w hk
    dsimp only at hk ⊢
    by_cases hkw : k = s.window
    · subst hkw
      constructor
      · intro hlt; exact absurd hlt (lt_irrefl _)
      · intro hlt; exact absurd hlt (lt_irrefl _)
    · rw [List.getElem?_set_ne (fun e => hkw e.symm)] at hk
      exact hinv k w hk
  | finish win j hw hj =>
    intro k w hk
    dsimp only at hk ⊢
    by_cases hkw : k = s.window
    · subst hkw
      constructor
      · intro hlt; exact absurd hlt (lt_irrefl _)
      · intro hlt; exact absurd hlt (lt_irrefl _)
    · rw [List.getElem?_set_ne (fun e => hkw e.symm)] at hk
      exact hinv k w hk
  | advance win hw hdone =>
    intro k w hk
    dsimp only at hk ⊢
    constructor
    · intro hlt
      rcases Nat.lt_succ_iff_lt_or_eq.mp hlt with h1 | h1
      · exact (hinv k w hk).1 h1
      · subst h1
        rw [hw] at hk
        injection hk with h2
        subst h2
        exact hdone
    · intro hlt
      exact (hinv k w hk).2 (by omega)

theorem chapterReachable_inv {ws : List (List Nat)} {s : ChapterState}
    (h : ChapterReachable ws s) : ChapterInv s := by
  induction h with
  | refl => exact initChapterState_inv ws
  | tail _ step ih => exact chapterStep_inv step ih

/-- Claim C2: windows of `download_chapters` are strictly sequential — in any
reachable state of a run over the window decomposition of [b, e] with window
size cc, once any chapter task of window i+1 has started (is no longer
pending), every chapter task of window i is finished; and for begin 1, end 3,
window size 2 the decomposition is exactly the two windows [1, 2] and [3]. -/
theorem c2_windows_sequential :
    windows 1 3 2 = [[1, 2], [3]] ∧
    ∀ b e cc s, ChapterReachable (windows b e cc) s →
      ∀ i win win2, s.tasks[i]? = some win → s.tasks[i + 1]? = some win2 →
        (∃ t ∈ win2, t ≠ TaskStatus.pending) →
        win.all (fun t => t == TaskStatus.finished) = true := by
  constructor
  · exact windows_one_three_two
  · intro b e cc s h i win win2 hi hi2 hex
    obtain ⟨t, ht, htne⟩ := hex
    have hinv := chapterReachable_inv h
    rcases Nat.lt_or_ge i s.window with h1 | h1
    · rw [List.all_eq_true]
      intro x hx
      rw [beq_iff_eq]
      exact (hinv i win hi).1 h1 x hx
    · exact absurd ((hinv (i + 1) win2 hi2).2 (by omega) t ht) htne

/-- Witness for C2: in the run over [1, 2] with window size 1, after window 0
finishes, the loop advances and the window-1 task starts; the theorem then
yields that window 0 is entirely finished. -/
theorem c2_witness :
    [TaskStatus.finished].all (fun t => t == TaskStatus.finished) = true := by
  have hreach : ChapterReachable (windows 1 2 1)
      ⟨1, [[TaskStatus.finished], [TaskStatus.inFlight]]⟩ := by
    show Relation.ReflTransGen ChapterStep (initChapterState (windows 1 2 1))
      ⟨1, [[TaskStatus.finished], [TaskStatus.inFlight]]⟩
    rw [windows_one_two_one]
    exact Relation.ReflTransGen.tail
      (Relation.ReflTransGen.tail
        (Relation.ReflTransGen.tail
          (Relation.ReflTransGen.tail Relation.ReflTransGen.refl
            (ChapterStep.start (initChapterState [[1], [2]])
              [TaskStatus.pending] 0 rfl rfl))
          (ChapterStep.finish
            ⟨0, [[TaskStatus.inFlight], [TaskStatus.pending]]⟩
            [TaskStatus.inFlight] 0 rfl rfl))
        (ChapterStep.advance
          ⟨0, [[TaskStatus.finished], [TaskStatus.pending]]⟩
          [TaskStatus.finished] rfl (by decide)))
      (ChapterStep.start ⟨1, [[TaskStatus.finished], [TaskStatus.pending]]⟩
        [TaskStatus.pending] 0 rfl rfl)
  exact c2_windows_sequential.2 1 2 1
    ⟨1, [[TaskStatus.finished], [TaskStatus.inFlight]]⟩ hreach 0
    [TaskStatus.finished] [TaskStatus.inFlight] rfl rfl
    ⟨TaskStatus.inFlight, by decide, by decide⟩

/-- Counterexample to claim C3: under a fetch that yields status 503 — a
transient error — on every attempt, `download_image` performs exactly one
HTTP request, not `patience` many (the source has no retry loop and no
patience parameter), and re-raises the `ClientResponseError` instead of
reporting an Abandoned outcome; `download_images` propagates that exception,
so the failure aborts the run. -/
theorem c3_counterexample :
    (download_image (fun _ => true) (HttpResult.response ⟨503, []⟩)
        "https://h/0001-001.png".data).1.countP isHttpGet = 1 ∧
    (download_image (fun _ => true) (HttpResult.response ⟨503, []⟩)
        "https://h/0001-001.png".data).2 =
      Except.error (PyErr.clientResponseError 503) ∧
    (download_images (fun _ => true)
        (fun _ => HttpResult.response ⟨503, []⟩)
        ["https://h/0001-001.png".data]).2 =
      Except.error (PyErr.clientResponseError 503) :=
  ⟨rfl, rfl, rfl⟩

/-- Claim C3 (amended): a fetch task whose attempt yields a transient error
(network failure or 5xx) is attempted exactly once — its trace holds one HTTP
request — and the resulting exception is re-raised and propagates out of
`download_images` rather than being reported as an Abandoned outcome. -/
theorem c3_amended (decodeOk : List Nat → Bool)
    (fetchF : List Char → HttpResult) (url : List Char) (c p : List Char)
    (hurl : extract_chapter_page url = some (c, p))
    (htr : IsTransient (fetchF url)) :
    (download_image decodeOk (fetchF url) url).1.countP isHttpGet = 1 ∧
    ∃ e, (download_image decodeOk (fetchF url) url).2 = Except.error e ∧
      ∀ rest, (download_images decodeOk fetchF (url :: rest)).2 =
        Except.error e := by
  have hkey : ∃ tr e, download_image decodeOk (fetchF url) url =
      (tr, Except.error e) ∧ tr.countP isHttpGet = 1 := by
    rcases htr with hnet | ⟨r, hr, h5a, h5b⟩
    · exact ⟨[Event.httpGet url], PyErr.clientError,
        by simp only [download_image, hurl, hnet], rfl⟩
    · refine ⟨[Event.httpGet url, Event.logError url r.status],
        PyErr.clientResponseError r.status, ?_, rfl⟩
      simp only [download_image, hurl, hr, raise_for_status,
        if_pos (show 400 ≤ r.status by omega)]
  obtain ⟨tr, e, hD, hcnt⟩ := hkey
  refine ⟨by rw [hD]; exact hcnt, e, by rw [hD], ?_⟩
  intro rest
  show mergeResults (download_image decodeOk (fetchF url) url).2
    (download_images decodeOk fetchF rest).2 = Except.error e
  rw [hD]
  rfl

/-- Witness for C3 (amended) at a concrete URL under a network failure. -/
theorem c3_witness :
    (download_image (fun _ => true) HttpResult.netError
        "https://h/0002-005.png".data).1.countP isHttpGet = 1 :=
  (c3_amended (fun _ => true) (fun _ => HttpResult.netError)
    "https://h/0002-005.png".data "0002".data "005".data (by decide)
    (Or.inl rfl)).1

/-- Counterexample to claim C4: with a single page whose fetch yields status
500, `download_images` does not return normally and produces no outcome
tally — it re-raises the `ClientResponseError` — and `download_chapters`
over the range [1, 3] aborts with the same exception. -/
theorem c4_counterexample :
    (download_images (fun _ => true) (fun _ => HttpResult.response ⟨500, []⟩)
        ["https://h/0001-001.png".data]).2 =
      Except.error (PyErr.clientResponseError 500) ∧
    download_chapters (fun _ => true) (fun _ _ => HttpResult.response ⟨500, []⟩)
      (fun _ => [some "https://h/0001-001.png".data]) 1 3 2 =
      Except.error (PyErr.clientResponseError 500) := by
  refine ⟨rfl, ?_⟩
  unfold download_chapters
  rw [windows_one_three_two]
  rfl

/-- Claim C4 (amended): task-level errors escape the schedulers as
exceptions: `download_images` re-raises the error of the first failing task (the
tasks before it succeeding), and `download_chapters` aborts with the error
raised out of its first chapter; no `FetchOutcome` tally is returned to the
caller. -/
theorem c4_amended (decodeOk : List Nat → Bool) :
    (∀ (fetchF : List Char → HttpResult) (pre : List (List Char))
        (url : List Char) (rest : List (List Char)) (e : PyErr),
      (∀ u ∈ pre, (download_image decodeOk (fetchF u) u).2 = Except.ok ()) →
      (download_image decodeOk (fetchF url) url).2 = Except.error e →
      (download_images decodeOk fetchF (pre ++ url :: rest)).2 =
        Except.error e) ∧
    (∀ (fetchOf : Nat → List Char → HttpResult)
        (sourcesOf : Nat → List (Option (List Char))) (b ee cc : Nat)
        (e : PyErr), b ≤ ee → 0 < cc →
      run_driver_and_download decodeOk (fetchOf b) (sourcesOf b) =
        Except.error e →
      download_chapters decodeOk fetchOf sourcesOf b ee cc =
        Except.error e) := by
  constructor
  · intro fetchF pre url rest e hok hfail
    induction pre with
    | nil =>
      show mergeResults (download_image decodeOk (fetchF url) url).2
        (download_images decodeOk fetchF rest).2 = Except.error e
      rw [hfail]
      rfl
    | cons x xs ih =>
      show mergeResults (download_image decodeOk (fetchF x) x).2
        (download_images decodeOk fetchF (xs ++ url :: rest)).2 =
          Except.error e
      rw [hok x (List.mem_cons_self x xs)]
      exact ih (fun u hu => hok u (List.mem_cons_of_mem x hu))
  · intro fetchOf sourcesOf b ee cc e hble hcc hfirst
    unfold download_chapters
    rw [windows]
    rw [dif_pos (⟨hble, hcc⟩ : b ≤ ee ∧ 0 < cc)]
    obtain ⟨k, hk⟩ : ∃ k, min cc (ee + 1 - b) = k + 1 :=
      ⟨min cc (ee + 1 - b) - 1, by omega⟩
    rw [hk, List.range'_succ]
    show mergeResults
      (mergeResults (run_driver_and_download decodeOk (fetchOf b) (sourcesOf b))
        (gatherChapters decodeOk fetchOf sourcesOf (List.range' (b + 1) k)))
      (runWindows decodeOk fetchOf sourcesOf (windows (b + cc) ee cc)) =
        Except.error e
    rw [hfirst]
    rfl

/-- Witness for C4 (amended): a succeeding first page followed by a page that
yields 500 makes `download_images` raise the 500 error. -/
theorem c4_witness :
    (download_images (fun _ => true)
        (fun u => if u = "https://h/0001-001.png".data
          then HttpResult.response ⟨200, [7]⟩
          else HttpResult.response ⟨500, []⟩)
        ["https://h/0001-001.png".data, "https://h/0001-002.png".data]).2 =
      Except.error (PyErr.clientResponseError 500) :=
  (c4_amended (fun _ => true)).1 _ ["https://h/0001-001.png".data]
    "https://h/0001-002.png".data [] (PyErr.clientResponseError 500)
    (by
      intro u hu
      rw [List.mem_singleton] at hu
      subst hu
      rfl)
    rfl

/-- Counterexample to claim C5: the single-attempt fetch does not map non-2xx
statuses to `FetchOutcome` values: at 404 it raises
`ClientResponseError 404` (where the spec mapping says `notFound`), at 403 it
raises `ClientResponseError 403` (spec: `fatalError`), and at 503 it raises
`ClientResponseError 503` (spec: `transientError`) — one uniform exception,
not three outcome variants. -/
theorem c5_counterexample :
    (download_image (fun _ => true) (HttpResult.response ⟨404, []⟩)
        "https://h/0001-001.png".data).2 =
      Except.error (PyErr.clientResponseError 404) ∧
    specClassify (HttpResult.response ⟨404, []⟩) = FetchOutcome.notFound ∧
    (download_image (fun _ => true) (HttpResult.response ⟨403, []⟩)
        "https://h/0001-001.png".data).2 =
      Except.error (PyErr.clientResponseError 403) ∧
    specClassify (HttpResult.response ⟨403, []⟩) = FetchOutcome.fatalError ∧
    (download_image (fun _ => true) (HttpResult.response ⟨503, []⟩)
        "https://h/0001-001.png".data).2 =
      Except.error (PyErr.clientResponseError 503) ∧
    specClassify (HttpResult.response ⟨503, []⟩) =
      FetchOutcome.transientError :=
  ⟨rfl, rfl, rfl, rfl, rfl, rfl⟩

/-- Claim C5 (amended): the single-attempt fetch is deterministic but maps
every status at or above 400 — 404, other 4xx and 5xx alike — to one and the
same raised `ClientResponseError` carrying the status (logged first), maps a
network-level failure to a raised `ClientError`, and on a status below 400
with decodable body saves the image and returns normally. -/
theorem c5_amended (decodeOk : List Nat → Bool) (url : List Char)
    (c p : List Char) (hurl : extract_chapter_page url = some (c, p)) :
    (∀ r : HttpResponse, 400 ≤ r.status →
      download_image decodeOk (HttpResult.response r) url =
        ([Event.httpGet url, Event.logError url r.status],
          Except.error (PyErr.clientResponseError r.status))) ∧
    download_image decodeOk HttpResult.netError url =
      ([Event.httpGet url], Except.error PyErr.clientError) ∧
    (∀ r : HttpResponse, r.status < 400 → decodeOk r.body = true →
      download_image decodeOk (HttpResult.response r) url =
        ([Event.httpGet url, Event.save c p r.body, Event.logSuccess url],
          Except.ok ())) := by
  refine ⟨?_, ?_, ?_⟩
  · intro r h4
    simp only [download_image, hurl, raise_for_status, if_pos h4]
  · simp only [download_image, hurl]
  · intro r hlt hdec
    simp only [download_image, hurl, raise_for_status,
      if_neg (show ¬400 ≤ r.status by omega), hdec, if_true]

/-- Witness for C5 (amended) at status 418: the raised exception carries the
status. -/
theorem c5_witness :
    download_image (fun _ => true) (HttpResult.response ⟨418, [1]⟩)
        "https://h/0001-001.png".data =
      ([Event.httpGet "https://h/0001-001.png".data,
        Event.logError "https://h/0001-001.png".data 418],
        Except.error (PyErr.clientResponseError 418)) :=
  (c5_amended (fun _ => true) "https://h/0001-001.png".data "0001".data
    "001".data (by decide)).1 ⟨418, [1]⟩ (by decide)

end MangaForLife
